import Mathlib

/-!
Verification of the RaiSQL_Notes tutorial app (ExpoSQLite_Tutorial).

Shallow embedding of `app/index.tsx` (the App controller) together with a
model of the data-access layer it imports from `../data/db` (fetchItems,
insertItem, updateItem, deleteItem).  The data-access file is not part of
the sources available here, so the four store operations are modelled from
the specification, section 4.1 (Item Store).  Everything else is translated
directly from `app/index.tsx`.

JavaScript numbers are modelled as exact integers (`Int`); the number-to-
string conversion `String(n)` follows the ECMAScript algorithm applied to
that exact value, including the switch to exponential notation ("1e+21")
once the magnitude reaches 10^21.
-/

/-- Model of the JavaScript whitespace class used by `String.prototype.trim`
and by `parseInt` when skipping leading whitespace: WhiteSpace together with
LineTerminator code points. -/
def isJsWhitespace (c : Char) : Bool :=
  decide (c.toNat = 9 ∨ c.toNat = 10 ∨ c.toNat = 11 ∨ c.toNat = 12 ∨ c.toNat = 13 ∨
          c.toNat = 32 ∨ c.toNat = 160 ∨ c.toNat = 5760 ∨
          (8192 ≤ c.toNat ∧ c.toNat ≤ 8202) ∨ c.toNat = 8232 ∨ c.toNat = 8233 ∨
          c.toNat = 8239 ∨ c.toNat = 8287 ∨ c.toNat = 12288 ∨ c.toNat = 65279)

/-- Decimal digit test, as used by `parseInt(_, 10)` when collecting digits. -/
def isDigitChar (c : Char) : Bool :=
  decide (48 ≤ c.toNat ∧ c.toNat ≤ 57)

/-- Numeric value of a decimal digit character. -/
def digitVal (c : Char) : Nat := c.toNat - 48

/-- Accumulating base-10 value of a digit list (most significant first). -/
def digitsToNat (l : List Char) (a : Nat) : Nat :=
  l.foldl (fun acc c => acc * 10 + digitVal c) a

/-- Model of `String.prototype.trim`: strip JavaScript whitespace from both
ends of the character list. -/
def trimList (cs : List Char) : List Char :=
  ((cs.dropWhile isJsWhitespace).reverse.dropWhile isJsWhitespace).reverse

/-- Model of `name.trim()` on strings. -/
def jsTrim (s : String) : String := String.mk (trimList s.data)

/-- Digit collection step of `parseInt(_, 10)`: take the longest leading run
of decimal digits; with no digits the result is NaN (here `none`), otherwise
the base-10 value with the sign already decided. -/
def parseDigits (cs : List Char) (neg : Bool) : Option Int :=
  if cs.takeWhile isDigitChar = [] then none
  else
    some (if neg then -((digitsToNat (cs.takeWhile isDigitChar) 0 : Nat) : Int)
          else ((digitsToNat (cs.takeWhile isDigitChar) 0 : Nat) : Int))

/-- Model of JavaScript `parseInt(s, 10)` composed with the
`Number.isNaN` test done by the controller: skip leading whitespace, read an
optional sign, then the longest run of decimal digits; no digits means NaN
(`none`).  Trailing non-digit characters are ignored, exactly as in
`parseInt`. -/
def parseIntBase10 (s : String) : Option Int :=
  match s.data.dropWhile isJsWhitespace with
  | [] => none
  | c :: rest =>
    if c = '-' then parseDigits rest true
    else if c = '+' then parseDigits rest false
    else parseDigits (c :: rest) false

/-- Decimal digit list of a natural number, most significant digit first.
Structural recursion on a fuel argument kept strictly above the number. -/
def natDigitsAux : Nat → Nat → List Char
  | _, 0 => []
  | n, fuel + 1 =>
    if n < 10 then [Nat.digitChar n]
    else natDigitsAux (n / 10) fuel ++ [Nat.digitChar (n % 10)]

/-- Exponential-notation branch of the ECMAScript Number::toString
algorithm for an integer value whose decimal digit list `ds` is longer than
21 digits: strip trailing zeros to get the significand, print its first
digit, a point and the remaining significand digits when there are any, then
"e+" and the exponent, which is one less than the digit count (for example
10^21 prints as "1e+21"). -/
def jsExpNotation (ds : List Char) : List Char :=
  match (ds.reverse.dropWhile fun c => c = '0').reverse with
  | [] => []
  | d :: rest =>
    if rest = [] then d :: 'e' :: '+' :: natDigitsAux (ds.length - 1) ds.length
    else d :: '.' :: rest ++ 'e' :: '+' :: natDigitsAux (ds.length - 1) ds.length

/-- Model of JavaScript `String(n)` for a non-negative integer value: plain
decimal digits up to 21 digits, exponential notation from 10^21 on, as the
ECMAScript Number::toString algorithm prescribes. -/
def jsStringOfNat (n : Nat) : String :=
  if (natDigitsAux n (n + 1)).length ≤ 21 then String.mk (natDigitsAux n (n + 1))
  else String.mk (jsExpNotation (natDigitsAux n (n + 1)))

/-- Model of JavaScript `String(i)` for an integer-valued number, as used in
`startEdit` via `String(item.quantity)`: the sign, then the magnitude
rendered by the Number::toString algorithm. -/
def jsStringOfInt (i : Int) : String :=
  if i < 0 then String.mk ('-' :: (jsStringOfNat i.natAbs).data)
  else jsStringOfNat i.natAbs

/-- A persisted record, from `type Item` in the data layer: id assigned by
the store, a name, and an integer quantity. -/
structure Item where
  id : Int
  name : String
  quantity : Int
deriving DecidableEq, Repr

/-- Modelled from the spec (section 4.1): the state of the Item Store, whose
implementation file `data/db.ts` is not among the available sources.  The
store holds all rows plus the next id it will assign on insert (spec:
"id generated by the store", unique and immutable once assigned). -/
structure Store where
  rows : List Item
  nextId : Int
deriving DecidableEq, Repr

/-- Modelled from the spec: `fetchAll() -> sequence of Item` returns all
rows, in a stable order. -/
def fetchItems (st : Store) : List Item := st.rows

/-- Modelled from the spec: `insert(name, quantity)` creates a new Item with
a store-generated fresh id. -/
def insertItem (st : Store) (name : String) (q : Int) : Store :=
  { rows := st.rows ++ [Item.mk st.nextId name q], nextId := st.nextId + 1 }

/-- Modelled from the spec: `update(id, name, quantity)` mutates name and
quantity of the row with the given id in place; no-op success if the id does
not exist. -/
def updateItem (st : Store) (id : Int) (name : String) (q : Int) : Store :=
  { st with rows := st.rows.map fun it => if it.id = id then Item.mk id name q else it }

/-- Modelled from the spec: `delete(id)` removes the row with the given id;
no-op success if the id does not exist. -/
def deleteItem (st : Store) (id : Int) : Store :=
  { st with rows := st.rows.filter fun it => it.id ≠ id }

/-- Controller state of the App component: the two controlled text fields,
the edit-mode flag `editingId`, and the cached items list. -/
structure AppState where
  name : String
  quantity : String
  editingId : Option Int
  items : List Item
deriving DecidableEq, Repr

/-- One request the controller sends to the store; traces of these record
which store calls a controller operation performs. -/
inductive StoreCall where
  | fetchAll
  | insert (name : String) (quantity : Int)
  | update (id : Int) (name : String) (quantity : Int)
  | delete (id : Int)
deriving DecidableEq, Repr

/-- Clearing of the form done after a successful save, update, or delete of
the edited row: setName(""), setQuantity(""), setEditingId(null). -/
def clearForm (s : AppState) : AppState :=
  { s with name := "", quantity := "", editingId := none }

/-- `loadItems` from index.tsx lines 70 to 77: fetch all items and store
them in `items`; a fetch failure is caught inside this function and logged,
leaving the state unchanged.  The boolean is the failure oracle for the
store call. -/
def loadItems (fetchFails : Bool) (s : AppState) (st : Store) :
    AppState × Store × List StoreCall :=
  if fetchFails then (s, st, [StoreCall.fetchAll])
  else ({ s with items := fetchItems st }, st, [StoreCall.fetchAll])

/-- `saveOrUpdate` from index.tsx lines 135 to 153, the submit handler wired
to the Button: validate (trimmed name non-empty, quantity parses to a
non-NaN integer), then insert or update according to `editingId`, reload the
list, and clear the form.  A mutation failure is caught, leaving everything
as it was; a reload failure is caught inside `loadItems`, so the form is
still cleared. -/
def saveOrUpdate (mutFails fetchFails : Bool) (s : AppState) (st : Store) :
    AppState × Store × List StoreCall :=
  if jsTrim s.name = "" then (s, st, [])
  else
    match parseIntBase10 s.quantity with
    | none => (s, st, [])
    | some q =>
      match s.editingId with
      | none =>
        if mutFails then (s, st, [StoreCall.insert (jsTrim s.name) q])
        else
          (clearForm (loadItems fetchFails s (insertItem st (jsTrim s.name) q)).1,
           (loadItems fetchFails s (insertItem st (jsTrim s.name) q)).2.1,
           StoreCall.insert (jsTrim s.name) q ::
             (loadItems fetchFails s (insertItem st (jsTrim s.name) q)).2.2)
      | some i =>
        if mutFails then (s, st, [StoreCall.update i (jsTrim s.name) q])
        else
          (clearForm (loadItems fetchFails s (updateItem st i (jsTrim s.name) q)).1,
           (loadItems fetchFails s (updateItem st i (jsTrim s.name) q)).2.1,
           StoreCall.update i (jsTrim s.name) q ::
             (loadItems fetchFails s (updateItem st i (jsTrim s.name) q)).2.2)

/-- `saveItem` from index.tsx lines 93 to 112.  Present in the source but
not wired to any UI control (the Button uses `saveOrUpdate`); it passes the
raw, untrimmed `name` to insert and does not touch `editingId`. -/
def saveItem (mutFails fetchFails : Bool) (s : AppState) (st : Store) :
    AppState × Store × List StoreCall :=
  if jsTrim s.name = "" then (s, st, [])
  else
    match parseIntBase10 s.quantity with
    | none => (s, st, [])
    | some q =>
      if mutFails then (s, st, [StoreCall.insert s.name q])
      else
        ({ (loadItems fetchFails s (insertItem st s.name q)).1 with
             name := "", quantity := "" },
         (loadItems fetchFails s (insertItem st s.name q)).2.1,
         StoreCall.insert s.name q ::
           (loadItems fetchFails s (insertItem st s.name q)).2.2)

/-- `startEdit` from index.tsx lines 171 to 175: record the id being edited
and populate both text fields from the item, the quantity through
`String(item.quantity)`. -/
def startEdit (it : Item) (s : AppState) : AppState :=
  { s with editingId := some it.id, name := it.name,
           quantity := jsStringOfInt it.quantity }

/-- The confirm branch of `confirmDelete` from index.tsx lines 193 to 214:
delete the row, reload the list, and if the deleted id was the one being
edited, clear the form.  A delete failure is caught, leaving everything
unchanged; a reload failure is caught inside `loadItems`. -/
def confirmDeleteConfirmed (delFails fetchFails : Bool) (id : Int)
    (s : AppState) (st : Store) : AppState × Store × List StoreCall :=
  if delFails then (s, st, [StoreCall.delete id])
  else
    if s.editingId = some id then
      (clearForm (loadItems fetchFails s (deleteItem st id)).1,
       (loadItems fetchFails s (deleteItem st id)).2.1,
       StoreCall.delete id :: (loadItems fetchFails s (deleteItem st id)).2.2)
    else
      ((loadItems fetchFails s (deleteItem st id)).1,
       (loadItems fetchFails s (deleteItem st id)).2.1,
       StoreCall.delete id :: (loadItems fetchFails s (deleteItem st id)).2.2)

/-- The cancel branch of `confirmDelete`: the cancel button has no handler,
so nothing at all happens. -/
def confirmDeleteCancelled (_id : Int) (s : AppState) (st : Store) :
    AppState × Store × List StoreCall := (s, st, [])

/-- The user-triggered entry points of the controller, as wired in the
render section of index.tsx: typing into either field, pressing the Button
(submit), the per-row edit and delete affordances, answering the delete
confirmation, and the mount-time reload.  The booleans are store failure
oracles. -/
inductive Event where
  | setNameEv (v : String)
  | setQuantityEv (v : String)
  | submitEv (mutFails fetchFails : Bool)
  | editEv (it : Item)
  | deleteConfirmEv (id : Int) (delFails fetchFails : Bool)
  | deleteCancelEv (id : Int)
  | reloadEv (fetchFails : Bool)
deriving DecidableEq, Repr

/-- One controller step: dispatch an event to the handler the UI wires it
to.  The edit affordance only exists on rendered rows, hence the membership
guard. -/
def stepFn (e : Event) (s : AppState) (st : Store) :
    AppState × Store × List StoreCall :=
  match e with
  | Event.setNameEv v => ({ s with name := v }, st, [])
  | Event.setQuantityEv v => ({ s with quantity := v }, st, [])
  | Event.submitEv mf ff => saveOrUpdate mf ff s st
  | Event.editEv it => if it ∈ s.items then (startEdit it s, st, []) else (s, st, [])
  | Event.deleteConfirmEv id df ff => confirmDeleteConfirmed df ff id s st
  | Event.deleteCancelEv id => confirmDeleteCancelled id s st
  | Event.reloadEv ff => loadItems ff s st

/-- Run a list of events from a combined controller-and-store state. -/
def runEvents (σ : AppState × Store) : List Event → AppState × Store
  | [] => σ
  | e :: es => runEvents ((stepFn e σ.1 σ.2).1, (stepFn e σ.1 σ.2).2.1) es

/-- Initial controller state: empty fields, no edit in progress, empty list. -/
def initState : AppState :=
  { name := "", quantity := "", editingId := none, items := [] }

/-- Initial store: no rows, first id to be assigned is 1. -/
def initStore : Store := { rows := [], nextId := 1 }

/-- States the running app can be in: everything produced by some event
sequence from the initial state. -/
def Reachable (σ : AppState × Store) : Prop :=
  ∃ es : List Event, runEvents (initState, initStore) es = σ

/-- Store invariant maintained by the controller: every persisted name is
trimmed and non-empty, ids stay below the next fresh id, and ids are
pairwise distinct. -/
def StoreInv (st : Store) : Prop :=
  (∀ it ∈ st.rows, jsTrim it.name = it.name ∧ it.name ≠ "" ∧ it.id < st.nextId) ∧
  (st.rows.map Item.id).Nodup

theorem digit_not_ws {c : Char} (h : isDigitChar c = true) : isJsWhitespace c = false := by
  simp only [isDigitChar, decide_eq_true_eq] at h
  simp only [isJsWhitespace, decide_eq_false_iff_not]
  omega

theorem dropWhile_head_false {p : Char → Bool} :
    ∀ {l : List Char} {x : Char} {xs : List Char},
      l.dropWhile p = x :: xs → p x = false := by
  intro l
  induction l with
  | nil => intro x xs h; simp at h
  | cons a t ih =>
    intro x xs h
    by_cases hp : p a = true
    · rw [List.dropWhile_cons_of_pos hp] at h; exact ih h
    · rw [List.dropWhile_cons_of_neg hp] at h
      injection h with h1 h2
      subst h1
      simpa using hp

theorem dropWhile_eq_self_of_head {p : Char → Bool} {x : Char} {xs : List Char}
    (h : p x = false) : (x :: xs).dropWhile p = x :: xs :=
  List.dropWhile_cons_of_neg (by simp [h])

theorem dropWhile_twice (p : Char → Bool) (l : List Char) :
    (l.dropWhile p).dropWhile p = l.dropWhile p := by
  cases h : l.dropWhile p with
  | nil => rfl
  | cons x xs => exact dropWhile_eq_self_of_head (dropWhile_head_false h)

theorem dropWhile_decomposition (p : Char → Bool) :
    ∀ l : List Char, ∃ t, l = t ++ l.dropWhile p := by
  intro l
  induction l with
  | nil => exact ⟨[], rfl⟩
  | cons a t ih =>
    by_cases hp : p a = true
    · obtain ⟨u, hu⟩ := ih
      refine ⟨a :: u, ?_⟩
      rw [List.dropWhile_cons_of_pos hp, List.cons_append]
      exact congrArg (fun z => a :: z) hu
    · refine ⟨[], ?_⟩
      rw [List.dropWhile_cons_of_neg hp]
      rfl

theorem trim_no_leading_ws (cs : List Char) :
    (trimList cs).dropWhile isJsWhitespace = trimList cs := by
  cases hrev : trimList cs with
  | nil => rfl
  | cons y ys =>
    obtain ⟨t, ht⟩ :=
      dropWhile_decomposition isJsWhitespace (cs.dropWhile isJsWhitespace).reverse
    have h3 := congrArg List.reverse ht
    rw [List.reverse_reverse, List.reverse_append] at h3
    unfold trimList at hrev
    rw [hrev] at h3
    have hy : isJsWhitespace y = false :=
      dropWhile_head_false (l := cs) (by rw [h3]; rfl)
    exact dropWhile_eq_self_of_head hy

theorem trimList_idem (cs : List Char) : trimList (trimList cs) = trimList cs := by
  show ((trimList cs |>.dropWhile isJsWhitespace).reverse.dropWhile isJsWhitespace).reverse
      = trimList cs
  rw [trim_no_leading_ws]
  have h4 : (trimList cs).reverse
      = (cs.dropWhile isJsWhitespace).reverse.dropWhile isJsWhitespace := by
    unfold trimList; rw [List.reverse_reverse]
  rw [h4, dropWhile_twice]
  unfold trimList
  rfl

theorem jsTrim_idem (s : String) : jsTrim (jsTrim s) = jsTrim s := by
  show String.mk (trimList (trimList s.data)) = String.mk (trimList s.data)
  rw [trimList_idem]

theorem digitChar_isDigit : ∀ m : Nat, m < 10 → isDigitChar (Nat.digitChar m) = true := by
  decide

theorem digitVal_digitChar : ∀ m : Nat, m < 10 → digitVal (Nat.digitChar m) = m := by
  decide

theorem takeWhile_all {p : Char → Bool} :
    ∀ {l : List Char}, (∀ c ∈ l, p c = true) → l.takeWhile p = l := by
  intro l
  induction l with
  | nil => intro _; rfl
  | cons a t ih =>
    intro h
    rw [List.takeWhile_cons_of_pos (h a (by simp))]
    rw [ih (fun c hc => h c (by simp [hc]))]

theorem natDigitsAux_spec : ∀ fuel n : Nat, n < fuel →
    natDigitsAux n fuel ≠ [] ∧ (∀ c ∈ natDigitsAux n fuel, isDigitChar c = true) ∧
    ∀ a : Nat, digitsToNat (natDigitsAux n fuel) a
      = a * 10 ^ (natDigitsAux n fuel).length + n := by
  intro fuel
  induction fuel with
  | zero => intro n h; exact absurd h (Nat.not_lt_zero n)
  | succ fuel ih =>
    intro n h
    by_cases h10 : n < 10
    · simp only [natDigitsAux, if_pos h10]
      refine ⟨by simp, ?_, ?_⟩
      · intro c hc
        rw [List.mem_singleton] at hc
        subst hc
        exact digitChar_isDigit n h10
      · intro a
        simp only [digitsToNat, List.foldl_cons, List.foldl_nil, List.length_singleton,
          pow_one, digitVal_digitChar n h10]
    · have hlt : n / 10 < fuel := by omega
      obtain ⟨hne, hdig, hval⟩ := ih (n / 10) hlt
      simp only [natDigitsAux, if_neg h10]
      refine ⟨by simp, ?_, ?_⟩
      · intro c hc
        rw [List.mem_append, List.mem_singleton] at hc
        rcases hc with hc | hc
        · exact hdig c hc
        · subst hc
          exact digitChar_isDigit (n % 10) (Nat.mod_lt n (by norm_num))
      · intro a
        have hmod : digitVal (Nat.digitChar (n % 10)) = n % 10 :=
          digitVal_digitChar (n % 10) (Nat.mod_lt n (by norm_num))
        simp only [digitsToNat] at hval ⊢
        rw [List.foldl_append, List.foldl_cons, List.foldl_nil, hval a, hmod,
          List.length_append, List.length_singleton, pow_succ]
        have hdm := Nat.div_add_mod n 10
        set L := (natDigitsAux (n / 10) fuel).length with hL
        have : (a * 10 ^ L + n / 10) * 10 + n % 10
            = a * (10 ^ L * 10) + (10 * (n / 10) + n % 10) := by ring
        rw [this, hdm]

theorem parse_natDigits (n : Nat) :
    parseIntBase10 (String.mk (natDigitsAux n (n + 1))) = some (n : Int) := by
  obtain ⟨hne, hdig, hval⟩ := natDigitsAux_spec (n + 1) n (Nat.lt_succ_self n)
  cases hl : natDigitsAux n (n + 1) with
  | nil => exact absurd hl hne
  | cons c0 rest =>
    have hc0 : isDigitChar c0 = true := hdig c0 (by rw [hl]; simp)
    have hdw : (String.mk (c0 :: rest)).data.dropWhile isJsWhitespace
        = c0 :: rest :=
      dropWhile_eq_self_of_head (digit_not_ws hc0)
    have hcm : ¬ (c0 = '-') := by
      intro hc
      subst hc
      exact absurd hc0 (by decide)
    have hcp : ¬ (c0 = '+') := by
      intro hc
      subst hc
      exact absurd hc0 (by decide)
    have hall : ∀ c ∈ c0 :: rest, isDigitChar c = true := by
      intro c hc
      rw [← hl] at hc
      exact hdig c hc
    have htw : (c0 :: rest).takeWhile isDigitChar = c0 :: rest := takeWhile_all hall
    have hv := hval 0
    rw [hl] at hv
    have hstep : parseIntBase10 (String.mk (c0 :: rest))
        = parseDigits (c0 :: rest) false := by
      unfold parseIntBase10
      rw [hdw]
      show (if c0 = '-' then parseDigits rest true
            else if c0 = '+' then parseDigits rest false
            else parseDigits (c0 :: rest) false) = parseDigits (c0 :: rest) false
      rw [if_neg hcm, if_neg hcp]
    rw [hstep]
    unfold parseDigits
    rw [htw, if_neg (List.cons_ne_nil c0 rest)]
    simp only [hv, zero_mul, zero_add, Bool.false_eq_true, if_false]

theorem natDigitsAux_length_le : ∀ fuel n k : Nat, n < fuel → 1 ≤ k → n < 10 ^ k →
    (natDigitsAux n fuel).length ≤ k := by
  intro fuel
  induction fuel with
  | zero => intro n k h; exact absurd h (Nat.not_lt_zero n)
  | succ fuel ih =>
    intro n k h hk hnk
    by_cases h10 : n < 10
    · simp only [natDigitsAux, if_pos h10, List.length_singleton]
      exact hk
    · have hk2 : 2 ≤ k := by
        rcases Nat.lt_or_ge k 2 with hk1 | hk1
        · have : k = 1 := by omega
          subst this
          rw [pow_one] at hnk
          omega
        · exact hk1
      have hdiv : n / 10 < 10 ^ (k - 1) := by
        have hpow : 10 ^ k = 10 ^ (k - 1) * 10 := by
          rw [← pow_succ]
          congr 1
          omega
        rw [Nat.div_lt_iff_lt_mul (by norm_num)]
        rw [hpow] at hnk
        exact hnk
      have hfuel : n / 10 < fuel := by omega
      have hih := ih (n / 10) (k - 1) hfuel (by omega) hdiv
      simp only [natDigitsAux, if_neg h10, List.length_append, List.length_singleton]
      omega

theorem jsStringOfNat_small (n : Nat) (hb : n < 10 ^ 21) :
    jsStringOfNat n = String.mk (natDigitsAux n (n + 1)) := by
  unfold jsStringOfNat
  rw [if_pos (natDigitsAux_length_le (n + 1) n 21 (Nat.lt_succ_self n) (by norm_num) hb)]

theorem parse_jsStringOfInt_small (i : Int) (hb : i.natAbs < 10 ^ 21) :
    parseIntBase10 (jsStringOfInt i) = some i := by
  have hplain : jsStringOfNat i.natAbs = String.mk (natDigitsAux i.natAbs (i.natAbs + 1)) :=
    jsStringOfNat_small i.natAbs hb
  by_cases hneg : i < 0
  · obtain ⟨hne, hdig, hval⟩ :=
      natDigitsAux_spec (i.natAbs + 1) i.natAbs (Nat.lt_succ_self i.natAbs)
    cases hl : natDigitsAux i.natAbs (i.natAbs + 1) with
    | nil => exact absurd hl hne
    | cons c0 rest =>
      have hdata : (jsStringOfInt i).data = '-' :: c0 :: rest := by
        show (if i < 0 then String.mk ('-' :: (jsStringOfNat i.natAbs).data)
              else jsStringOfNat i.natAbs).data = '-' :: c0 :: rest
        rw [if_pos hneg, hplain]
        show '-' :: natDigitsAux i.natAbs (i.natAbs + 1) = '-' :: c0 :: rest
        rw [hl]
      have hdw : (jsStringOfInt i).data.dropWhile isJsWhitespace = '-' :: c0 :: rest := by
        rw [hdata]
        exact dropWhile_eq_self_of_head (by decide)
      have hall : ∀ c ∈ c0 :: rest, isDigitChar c = true := by
        intro c hc
        rw [← hl] at hc
        exact hdig c hc
      have htw : (c0 :: rest).takeWhile isDigitChar = c0 :: rest := takeWhile_all hall
      have hv := hval 0
      rw [hl] at hv
      have hstep : parseIntBase10 (jsStringOfInt i) = parseDigits (c0 :: rest) true := by
        unfold parseIntBase10
        rw [hdw]
        show (if ('-' : Char) = '-' then parseDigits (c0 :: rest) true
              else if ('-' : Char) = '+' then parseDigits (c0 :: rest) false
              else parseDigits ('-' :: c0 :: rest) false) = parseDigits (c0 :: rest) true
        rw [if_pos rfl]
      rw [hstep]
      unfold parseDigits
      rw [htw, if_neg (List.cons_ne_nil c0 rest)]
      simp only [hv, zero_mul, zero_add, if_true]
      congr 1
      omega
  · have habs : ((i.natAbs : Nat) : Int) = i := by omega
    show parseIntBase10 (if i < 0 then String.mk ('-' :: (jsStringOfNat i.natAbs).data)
          else jsStringOfNat i.natAbs) = some i
    rw [if_neg hneg, hplain, parse_natDigits, habs]

theorem loadItems_store (ff : Bool) (s : AppState) (st : Store) :
    (loadItems ff s st).2.1 = st := by
  cases ff <;> rfl

theorem loadItems_calls (ff : Bool) (s : AppState) (st : Store) :
    (loadItems ff s st).2.2 = [StoreCall.fetchAll] := by
  cases ff <;> rfl

theorem loadItems_name (ff : Bool) (s : AppState) (st : Store) :
    (loadItems ff s st).1.name = s.name := by
  cases ff <;> rfl

theorem loadItems_quantity (ff : Bool) (s : AppState) (st : Store) :
    (loadItems ff s st).1.quantity = s.quantity := by
  cases ff <;> rfl

theorem loadItems_editingId (ff : Bool) (s : AppState) (st : Store) :
    (loadItems ff s st).1.editingId = s.editingId := by
  cases ff <;> rfl

theorem loadItems_items_ok (s : AppState) (st : Store) :
    (loadItems false s st).1.items = st.rows := rfl

theorem loadItems_fail (s : AppState) (st : Store) :
    loadItems true s st = (s, st, [StoreCall.fetchAll]) := rfl

theorem saveOrUpdate_invalid (mf ff : Bool) (s : AppState) (st : Store)
    (h : jsTrim s.name = "" ∨ parseIntBase10 s.quantity = none) :
    saveOrUpdate mf ff s st = (s, st, []) := by
  unfold saveOrUpdate
  rcases h with h | h
  · rw [if_pos h]
  · by_cases h0 : jsTrim s.name = ""
    · rw [if_pos h0]
    · rw [if_neg h0, h]

theorem saveOrUpdate_insert (ff : Bool) (s : AppState) (st : Store) (q : Int)
    (h1 : ¬ jsTrim s.name = "") (h2 : parseIntBase10 s.quantity = some q)
    (h3 : s.editingId = none) :
    saveOrUpdate false ff s st =
      (clearForm (loadItems ff s (insertItem st (jsTrim s.name) q)).1,
       (loadItems ff s (insertItem st (jsTrim s.name) q)).2.1,
       StoreCall.insert (jsTrim s.name) q ::
         (loadItems ff s (insertItem st (jsTrim s.name) q)).2.2) := by
  unfold saveOrUpdate
  rw [if_neg h1, h2, h3]
  rfl

theorem saveOrUpdate_update (ff : Bool) (s : AppState) (st : Store) (q i : Int)
    (h1 : ¬ jsTrim s.name = "") (h2 : parseIntBase10 s.quantity = some q)
    (h3 : s.editingId = some i) :
    saveOrUpdate false ff s st =
      (clearForm (loadItems ff s (updateItem st i (jsTrim s.name) q)).1,
       (loadItems ff s (updateItem st i (jsTrim s.name) q)).2.1,
       StoreCall.update i (jsTrim s.name) q ::
         (loadItems ff s (updateItem st i (jsTrim s.name) q)).2.2) := by
  unfold saveOrUpdate
  rw [if_neg h1, h2, h3]
  rfl

theorem saveOrUpdate_insertFails (ff : Bool) (s : AppState) (st : Store) (q : Int)
    (h1 : ¬ jsTrim s.name = "") (h2 : parseIntBase10 s.quantity = some q)
    (h3 : s.editingId = none) :
    saveOrUpdate true ff s st = (s, st, [StoreCall.insert (jsTrim s.name) q]) := by
  unfold saveOrUpdate
  rw [if_neg h1, h2, h3]
  rfl

theorem saveOrUpdate_updateFails (ff : Bool) (s : AppState) (st : Store) (q i : Int)
    (h1 : ¬ jsTrim s.name = "") (h2 : parseIntBase10 s.quantity = some q)
    (h3 : s.editingId = some i) :
    saveOrUpdate true ff s st = (s, st, [StoreCall.update i (jsTrim s.name) q]) := by
  unfold saveOrUpdate
  rw [if_neg h1, h2, h3]
  rfl

theorem confirmDelete_fail (ff : Bool) (id : Int) (s : AppState) (st : Store) :
    confirmDeleteConfirmed true ff id s st = (s, st, [StoreCall.delete id]) := rfl

theorem confirmDelete_editing (ff : Bool) (id : Int) (s : AppState) (st : Store)
    (h : s.editingId = some id) :
    confirmDeleteConfirmed false ff id s st =
      (clearForm (loadItems ff s (deleteItem st id)).1,
       (loadItems ff s (deleteItem st id)).2.1,
       StoreCall.delete id :: (loadItems ff s (deleteItem st id)).2.2) := by
  unfold confirmDeleteConfirmed
  rw [if_neg Bool.false_ne_true, if_pos h]

theorem confirmDelete_other (ff : Bool) (id : Int) (s : AppState) (st : Store)
    (h : ¬ s.editingId = some id) :
    confirmDeleteConfirmed false ff id s st =
      ((loadItems ff s (deleteItem st id)).1,
       (loadItems ff s (deleteItem st id)).2.1,
       StoreCall.delete id :: (loadItems ff s (deleteItem st id)).2.2) := by
  unfold confirmDeleteConfirmed
  rw [if_neg Bool.false_ne_true, if_neg h]

theorem storeInv_insert (st : Store) (nm : String) (q : Int)
    (hin : StoreInv st) (hnm : jsTrim nm = nm) (hne : nm ≠ "") :
    StoreInv (insertItem st nm q) := by
  obtain ⟨hrows, hnd⟩ := hin
  constructor
  · intro it hit
    have hit2 : it ∈ st.rows ++ [Item.mk st.nextId nm q] := hit
    rw [List.mem_append, List.mem_singleton] at hit2
    rcases hit2 with hit2 | hit2
    · obtain ⟨ha, hb, hc⟩ := hrows it hit2
      refine ⟨ha, hb, ?_⟩
      show it.id < st.nextId + 1
      omega
    · subst hit2
      refine ⟨hnm, hne, ?_⟩
      show st.nextId < st.nextId + 1
      omega
  · show ((st.rows ++ [Item.mk st.nextId nm q]).map Item.id).Nodup
    rw [List.map_append]
    rw [List.nodup_append]
    refine ⟨hnd, List.nodup_singleton _, ?_⟩
    intro a ha hb
    rw [List.map_singleton, List.mem_singleton] at hb
    obtain ⟨it, hit, hid⟩ := List.mem_map.mp ha
    obtain ⟨_, _, hlt⟩ := hrows it hit
    have hb2 : a = st.nextId := hb
    omega

theorem updateItem_ids (st : Store) (id : Int) (nm : String) (q : Int) :
    (updateItem st id nm q).rows.map Item.id = st.rows.map Item.id := by
  show (st.rows.map fun it => if it.id = id then Item.mk id nm q else it).map Item.id
      = st.rows.map Item.id
  rw [List.map_map]
  apply List.map_congr_left
  intro it _
  by_cases h : it.id = id
  · simp only [Function.comp_apply, if_pos h]
    exact h.symm
  · simp only [Function.comp_apply, if_neg h]

theorem storeInv_update (st : Store) (id : Int) (nm : String) (q : Int)
    (hin : StoreInv st) (hnm : jsTrim nm = nm) (hne : nm ≠ "") :
    StoreInv (updateItem st id nm q) := by
  obtain ⟨hrows, hnd⟩ := hin
  constructor
  · intro it hit
    have hit2 : it ∈ st.rows.map fun it0 => if it0.id = id then Item.mk id nm q else it0 :=
      hit
    obtain ⟨it0, hit0, heq⟩ := List.mem_map.mp hit2
    obtain ⟨ha, hb, hc⟩ := hrows it0 hit0
    by_cases h : it0.id = id
    · rw [if_pos h] at heq
      subst heq
      refine ⟨hnm, hne, ?_⟩
      show id < st.nextId
      rw [← h]
      exact hc
    · rw [if_neg h] at heq
      subst heq
      exact ⟨ha, hb, hc⟩
  · show ((updateItem st id nm q).rows.map Item.id).Nodup
    rw [updateItem_ids]
    exact hnd

theorem storeInv_delete (st : Store) (id : Int) (hin : StoreInv st) :
    StoreInv (deleteItem st id) := by
  obtain ⟨hrows, hnd⟩ := hin
  constructor
  · intro it hit
    have hit2 : it ∈ st.rows.filter fun it0 => it0.id ≠ id := hit
    rw [List.mem_filter] at hit2
    exact hrows it hit2.1
  · show ((st.rows.filter fun it0 => it0.id ≠ id).map Item.id).Nodup
    exact ((List.filter_sublist _).map Item.id).nodup hnd

theorem saveOrUpdate_storeInv (mf ff : Bool) (s : AppState) (st : Store)
    (hin : StoreInv st) : StoreInv (saveOrUpdate mf ff s st).2.1 := by
  by_cases h1 : jsTrim s.name = ""
  · rw [saveOrUpdate_invalid mf ff s st (Or.inl h1)]
    exact hin
  · cases hq : parseIntBase10 s.quantity with
    | none =>
      rw [saveOrUpdate_invalid mf ff s st (Or.inr hq)]
      exact hin
    | some q =>
      have hidem : jsTrim (jsTrim s.name) = jsTrim s.name := jsTrim_idem s.name
      cases mf with
      | true =>
        cases he : s.editingId with
        | none =>
          rw [saveOrUpdate_insertFails ff s st q h1 hq he]
          exact hin
        | some i =>
          rw [saveOrUpdate_updateFails ff s st q i h1 hq he]
          exact hin
      | false =>
        cases he : s.editingId with
        | none =>
          rw [saveOrUpdate_insert ff s st q h1 hq he]
          show StoreInv (loadItems ff s (insertItem st (jsTrim s.name) q)).2.1
          rw [loadItems_store]
          exact storeInv_insert st (jsTrim s.name) q hin hidem h1
        | some i =>
          rw [saveOrUpdate_update ff s st q i h1 hq he]
          show StoreInv (loadItems ff s (updateItem st i (jsTrim s.name) q)).2.1
          rw [loadItems_store]
          exact storeInv_update st i (jsTrim s.name) q hin hidem h1

theorem stepFn_storeInv (e : Event) (s : AppState) (st : Store)
    (hin : StoreInv st) : StoreInv (stepFn e s st).2.1 := by
  cases e with
  | setNameEv v => exact hin
  | setQuantityEv v => exact hin
  | submitEv mf ff => exact saveOrUpdate_storeInv mf ff s st hin
  | editEv it =>
    show StoreInv (if it ∈ s.items then (startEdit it s, st, []) else (s, st, [])).2.1
    by_cases h : it ∈ s.items
    · rw [if_pos h]; exact hin
    · rw [if_neg h]; exact hin
  | deleteConfirmEv id df ff =>
    show StoreInv (confirmDeleteConfirmed df ff id s st).2.1
    cases df with
    | true =>
      rw [confirmDelete_fail ff id s st]
      exact hin
    | false =>
      by_cases h : s.editingId = some id
      · rw [confirmDelete_editing ff id s st h]
        show StoreInv (loadItems ff s (deleteItem st id)).2.1
        rw [loadItems_store]
        exact storeInv_delete st id hin
      · rw [confirmDelete_other ff id s st h]
        show StoreInv (loadItems ff s (deleteItem st id)).2.1
        rw [loadItems_store]
        exact storeInv_delete st id hin
  | deleteCancelEv id => exact hin
  | reloadEv ff =>
    show StoreInv (loadItems ff s st).2.1
    rw [loadItems_store]
    exact hin

theorem runEvents_storeInv (es : List Event) :
    ∀ σ : AppState × Store, StoreInv σ.2 → StoreInv (runEvents σ es).2 := by
  induction es with
  | nil => intro σ h; exact h
  | cons e es ih =>
    intro σ h
    exact ih _ (stepFn_storeInv e σ.1 σ.2 h)

theorem reachable_storeInv (σ : AppState × Store) (h : Reachable σ) : StoreInv σ.2 := by
  obtain ⟨es, hes⟩ := h
  rw [← hes]
  apply runEvents_storeInv
  constructor
  · intro it hit
    exact absurd hit (List.not_mem_nil it)
  · exact List.nodup_nil

theorem updateItem_rows_length (st : Store) (id : Int) (nm : String) (q : Int) :
    (updateItem st id nm q).rows.length = st.rows.length := by
  show (st.rows.map fun it => if it.id = id then Item.mk id nm q else it).length
      = st.rows.length
  rw [List.length_map]

/-- Claim C1, counterexample: the quantity string "7x" is not the decimal
representation of any integer, yet submit() with the valid name "A" performs
an insert store call (persisting 7) and changes the controller state and the
store, so the claim that every non-integer quantity string is a silent no-op
fails on this input. -/
theorem c1_counterexample :
    saveOrUpdate false false (AppState.mk ("A") ("7x") none []) (Store.mk [] 1)
      = (AppState.mk ("") ("") none [Item.mk 1 ("A") 7],
         Store.mk [Item.mk 1 ("A") 7] 2,
         [StoreCall.insert ("A") 7, StoreCall.fetchAll]) := by
  decide

/-- Claim C1, amended: for invalid form input — a name that trims to empty,
or a quantity string in which base-10 parseInt finds no digits (NaN) —
submit() performs no store call and leaves the controller state and the
store unchanged.  (A quantity string with an integer prefix followed by
junk, such as "7x", is accepted by parseInt, not rejected.) -/
theorem c1_invalid_submit_noop (mf ff : Bool) (s : AppState) (st : Store)
    (h : jsTrim s.name = "" ∨ parseIntBase10 s.quantity = none) :
    saveOrUpdate mf ff s st = (s, st, []) :=
  saveOrUpdate_invalid mf ff s st h

/-- Witness for the amended C1 at a concrete input: quantity "abc" has no
digits, so submit leaves everything unchanged and issues no store call. -/
theorem c1_invalid_submit_noop_witness :
    saveOrUpdate false false (AppState.mk ("B") ("abc") none []) (Store.mk [] 1)
      = (AppState.mk ("B") ("abc") none [], Store.mk [] 1, []) :=
  c1_invalid_submit_noop false false (AppState.mk ("B") ("abc") none [])
    (Store.mk [] 1) (Or.inr (by decide))

/-- Claim C2: with a name whose trim is non-empty, a quantity string parsing
to the integer q, idle-create state, a successful insert call, and every
existing row id below the next fresh id, submit() appends exactly one new
Item carrying the trimmed name, the parsed quantity, and the fresh store id,
which no existing row carries; the row count grows by exactly one. -/
theorem c2_submit_insert_appends (ff : Bool) (s : AppState) (st : Store) (q : Int)
    (h1 : ¬ jsTrim s.name = "") (h2 : parseIntBase10 s.quantity = some q)
    (h3 : s.editingId = none) (h4 : ∀ it ∈ st.rows, it.id < st.nextId) :
    (saveOrUpdate false ff s st).2.1.rows
        = st.rows ++ [Item.mk st.nextId (jsTrim s.name) q] ∧
    (saveOrUpdate false ff s st).2.1.rows.length = st.rows.length + 1 ∧
    ∀ it ∈ st.rows, it.id ≠ st.nextId := by
  have hrows : (saveOrUpdate false ff s st).2.1.rows
      = st.rows ++ [Item.mk st.nextId (jsTrim s.name) q] := by
    rw [saveOrUpdate_insert ff s st q h1 h2 h3]
    show (loadItems ff s (insertItem st (jsTrim s.name) q)).2.1.rows = _
    rw [loadItems_store]
    rfl
  refine ⟨hrows, ?_, ?_⟩
  · rw [hrows, List.length_append, List.length_singleton]
  · intro it hit
    have := h4 it hit
    omega

/-- Witness for C2 at a concrete input: inserting name " Apples " (trimming
to "Apples") with quantity string "5" into an empty store appends the single
row with id 1. -/
theorem c2_witness :
    (saveOrUpdate false false (AppState.mk (" Apples ") ("5") none [])
        (Store.mk [] 1)).2.1.rows = [Item.mk 1 ("Apples") 5] ∧
    (saveOrUpdate false false (AppState.mk (" Apples ") ("5") none [])
        (Store.mk [] 1)).2.1.rows.length = 1 := by
  have h := c2_submit_insert_appends false (AppState.mk (" Apples ") ("5") none [])
    (Store.mk [] 1) 5 (by decide) (by decide) rfl (by decide)
  exact ⟨h.1, h.2.1⟩

/-- Claim C5: on valid input with a successful mutation (insert when
idle-create, update when editing), submit() clears both form fields, returns
to idle-create, and issues the list re-fetch; when that re-fetch also
succeeds the in-memory list equals the full store contents. -/
theorem c5_submit_success_resets (ff : Bool) (s : AppState) (st : Store) (q : Int)
    (h1 : ¬ jsTrim s.name = "") (h2 : parseIntBase10 s.quantity = some q) :
    (saveOrUpdate false ff s st).1.name = ("") ∧
    (saveOrUpdate false ff s st).1.quantity = ("") ∧
    (saveOrUpdate false ff s st).1.editingId = none ∧
    StoreCall.fetchAll ∈ (saveOrUpdate false ff s st).2.2 ∧
    (ff = false → (saveOrUpdate false ff s st).1.items
        = fetchItems (saveOrUpdate false ff s st).2.1) := by
  cases he : s.editingId with
  | none =>
    rw [saveOrUpdate_insert ff s st q h1 h2 he]
    refine ⟨rfl, rfl, rfl, ?_, ?_⟩
    · show StoreCall.fetchAll ∈ StoreCall.insert (jsTrim s.name) q ::
          (loadItems ff s (insertItem st (jsTrim s.name) q)).2.2
      rw [loadItems_calls]
      simp
    · intro hff
      subst hff
      show (clearForm (loadItems false s (insertItem st (jsTrim s.name) q)).1).items
          = fetchItems (loadItems false s (insertItem st (jsTrim s.name) q)).2.1
      rw [loadItems_store]
      rfl
  | some i =>
    rw [saveOrUpdate_update ff s st q i h1 h2 he]
    refine ⟨rfl, rfl, rfl, ?_, ?_⟩
    · show StoreCall.fetchAll ∈ StoreCall.update i (jsTrim s.name) q ::
          (loadItems ff s (updateItem st i (jsTrim s.name) q)).2.2
      rw [loadItems_calls]
      simp
    · intro hff
      subst hff
      show (clearForm (loadItems false s (updateItem st i (jsTrim s.name) q)).1).items
          = fetchItems (loadItems false s (updateItem st i (jsTrim s.name) q)).2.1
      rw [loadItems_store]
      rfl

/-- Witness for C5 at a concrete input: a successful insert of ("Pen", "2")
clears the form, returns to idle-create, and refreshes the list. -/
theorem c5_witness :
    (saveOrUpdate false false (AppState.mk ("Pen") ("2") none [])
        (Store.mk [] 1)).1.name = ("") ∧
    (saveOrUpdate false false (AppState.mk ("Pen") ("2") none [])
        (Store.mk [] 1)).1.editingId = none := by
  have h := c5_submit_success_resets false (AppState.mk ("Pen") ("2") none [])
    (Store.mk [] 1) 2 (by decide) (by decide)
  exact ⟨h.1, h.2.2.1⟩

/-- Claim C7: every failing store call is caught at its call site and does
not propagate: a failed fetch leaves the controller and store exactly as
they were; a failed insert or update during submit leaves the form
populated, the editing flag and the displayed list unchanged, and the store
untouched; a failed delete likewise changes nothing. -/
theorem c7_failures_swallowed (ff : Bool) (s : AppState) (st : Store) (id : Int) :
    loadItems true s st = (s, st, [StoreCall.fetchAll]) ∧
    (saveOrUpdate true ff s st).1 = s ∧
    (saveOrUpdate true ff s st).2.1 = st ∧
    confirmDeleteConfirmed true ff id s st = (s, st, [StoreCall.delete id]) := by
  have hso : (saveOrUpdate true ff s st).1 = s ∧ (saveOrUpdate true ff s st).2.1 = st := by
    by_cases h1 : jsTrim s.name = ""
    · rw [saveOrUpdate_invalid true ff s st (Or.inl h1)]
      exact ⟨rfl, rfl⟩
    · cases hq : parseIntBase10 s.quantity with
      | none =>
        rw [saveOrUpdate_invalid true ff s st (Or.inr hq)]
        exact ⟨rfl, rfl⟩
      | some q =>
        cases he : s.editingId with
        | none =>
          rw [saveOrUpdate_insertFails ff s st q h1 hq he]
          exact ⟨rfl, rfl⟩
        | some i =>
          rw [saveOrUpdate_updateFails ff s st q i h1 hq he]
          exact ⟨rfl, rfl⟩
  exact ⟨rfl, hso.1, hso.2, rfl⟩

theorem jsExpNotation_plus (ds : List Char) :
    ('+' : Char) ∈ jsExpNotation ds ∨ jsExpNotation ds = [] := by
  cases hs : (ds.reverse.dropWhile fun c => c = '0').reverse with
  | nil =>
    right
    unfold jsExpNotation
    rw [hs]
  | cons d rest =>
    left
    by_cases hr : rest = []
    · have hform : jsExpNotation ds
          = d :: 'e' :: '+' :: natDigitsAux (ds.length - 1) ds.length := by
        unfold jsExpNotation
        rw [hs]
        show (if rest = [] then d :: 'e' :: '+' :: natDigitsAux (ds.length - 1) ds.length
              else d :: '.' :: rest ++ 'e' :: '+' :: natDigitsAux (ds.length - 1) ds.length)
            = d :: 'e' :: '+' :: natDigitsAux (ds.length - 1) ds.length
        rw [if_pos hr]
      rw [hform]
      simp
    · have hform : jsExpNotation ds
          = d :: '.' :: rest ++ 'e' :: '+' :: natDigitsAux (ds.length - 1) ds.length := by
        unfold jsExpNotation
        rw [hs]
        show (if rest = [] then d :: 'e' :: '+' :: natDigitsAux (ds.length - 1) ds.length
              else d :: '.' :: rest ++ 'e' :: '+' :: natDigitsAux (ds.length - 1) ds.length)
            = d :: '.' :: rest ++ 'e' :: '+' :: natDigitsAux (ds.length - 1) ds.length
        rw [if_neg hr]
      rw [hform]
      simp

/-- Claim C9: there is a quantity string, here "7x", that is not the decimal
representation of any integer (String(i) never equals it), yet submit() with
the valid name "A" passes validation and performs the insert, persisting the
integer prefix 7 computed by base-10 parseInt. -/
theorem c9_junk_quantity_accepted :
    (∀ i : Int, jsStringOfInt i ≠ ("7x")) ∧
    (saveOrUpdate false false (AppState.mk ("A") ("7x") none []) (Store.mk [] 1)).2.2
      = [StoreCall.insert ("A") 7, StoreCall.fetchAll] ∧
    (saveOrUpdate false false (AppState.mk ("A") ("7x") none []) (Store.mk [] 1)).2.1.rows
      = [Item.mk 1 ("A") 7] := by
  refine ⟨?_, by decide, by decide⟩
  intro i h
  have hdata : (jsStringOfInt i).data = ['7', 'x'] := by
    rw [h]
  by_cases hneg : i < 0
  · have hd2 : ('-' :: (jsStringOfNat i.natAbs).data : List Char) = ['7', 'x'] := by
      rw [← hdata]
      show _ = (jsStringOfInt i).data
      unfold jsStringOfInt
      rw [if_pos hneg]
    injection hd2 with hhead _
    exact absurd hhead (by decide)
  · have hd2 : (jsStringOfNat i.natAbs).data = ['7', 'x'] := by
      rw [← hdata]
      show _ = (jsStringOfInt i).data
      unfold jsStringOfInt
      rw [if_neg hneg]
    by_cases hlen : (natDigitsAux i.natAbs (i.natAbs + 1)).length ≤ 21
    · have hd3 : natDigitsAux i.natAbs (i.natAbs + 1) = ['7', 'x'] := by
        rw [← hd2]
        unfold jsStringOfNat
        rw [if_pos hlen]
      obtain ⟨_, hdig, _⟩ := natDigitsAux_spec (i.natAbs + 1) i.natAbs (Nat.lt_succ_self _)
      have hx : isDigitChar 'x' = true := by
        apply hdig
        rw [hd3]
        simp
      exact absurd hx (by decide)
    · have hd3 : jsExpNotation (natDigitsAux i.natAbs (i.natAbs + 1)) = ['7', 'x'] := by
        rw [← hd2]
        unfold jsStringOfNat
        rw [if_neg hlen]
      rcases jsExpNotation_plus (natDigitsAux i.natAbs (i.natAbs + 1)) with hplus | hempty
      · rw [hd3] at hplus
        exact absurd hplus (by decide)
      · rw [hempty] at hd3
        exact absurd hd3 (by decide)

/-- Claim C10: when a delete is confirmed for an id that is not the
currently edited one (including when nothing is being edited), the form
fields and the editing flag are untouched after the delete and the list
refresh; only the items list can change. -/
theorem c10_delete_other_preserves_form (ff : Bool) (id : Int) (s : AppState)
    (st : Store) (h : ¬ s.editingId = some id) :
    (confirmDeleteConfirmed false ff id s st).1.name = s.name ∧
    (confirmDeleteConfirmed false ff id s st).1.quantity = s.quantity ∧
    (confirmDeleteConfirmed false ff id s st).1.editingId = s.editingId := by
  rw [confirmDelete_other ff id s st h]
  exact ⟨loadItems_name ff s _, loadItems_quantity ff s _, loadItems_editingId ff s _⟩

/-- Witness for C10 at a concrete input: deleting id 2 while editing id 1
keeps the form fields and the editing flag. -/
theorem c10_witness :
    (confirmDeleteConfirmed false false 2
        (AppState.mk ("N") ("3") (some 1) [Item.mk 1 ("N") 3, Item.mk 2 ("M") 4])
        (Store.mk [Item.mk 1 ("N") 3, Item.mk 2 ("M") 4] 3)).1.name = ("N") ∧
    (confirmDeleteConfirmed false false 2
        (AppState.mk ("N") ("3") (some 1) [Item.mk 1 ("N") 3, Item.mk 2 ("M") 4])
        (Store.mk [Item.mk 1 ("N") 3, Item.mk 2 ("M") 4] 3)).1.editingId = some 1 := by
  have h := c10_delete_other_preserves_form false 2
    (AppState.mk ("N") ("3") (some 1) [Item.mk 1 ("N") 3, Item.mk 2 ("M") 4])
    (Store.mk [Item.mk 1 ("N") 3, Item.mk 2 ("M") 4] 3) (by decide)
  exact ⟨h.1, h.2.2⟩

/-- Claim C3, counterexample: the state holding the single stored item
(1, "A", 10^21) is reachable — type the 22-digit quantity and submit — yet
startEdit on that item followed by submit with the form untouched issues an
update call carrying quantity 1 instead of 10^21: String(10^21) renders the
exponential form "1e+21", and parseInt("1e+21", 10) reads only the leading
digit.  So the claim fails as stated on this item. -/
theorem c3_counterexample :
    Reachable (AppState.mk ("") ("") none [Item.mk 1 ("A") 1000000000000000000000],
               Store.mk [Item.mk 1 ("A") 1000000000000000000000] 2) ∧
    Item.mk 1 ("A") 1000000000000000000000
      ∈ (Store.mk [Item.mk 1 ("A") 1000000000000000000000] 2).rows ∧
    (saveOrUpdate false false
        (startEdit (Item.mk 1 ("A") 1000000000000000000000)
          (AppState.mk ("") ("") none [Item.mk 1 ("A") 1000000000000000000000]))
        (Store.mk [Item.mk 1 ("A") 1000000000000000000000] 2)).2.2
      = [StoreCall.update 1 ("A") 1, StoreCall.fetchAll] ∧
    (1 : Int) ≠ 1000000000000000000000 := by
  refine ⟨⟨[Event.setNameEv ("A"),
            Event.setQuantityEv ("1000000000000000000000"),
            Event.submitEv false false], by decide⟩, by decide, by decide, by decide⟩

/-- Claim C3, amended: in any reachable state of the app, picking any item
currently in the store whose quantity magnitude is below 10^21 (the
threshold at which JavaScript String() switches to exponential notation),
startEdit(item) followed immediately by submit() with the form left
unchanged issues an update call carrying exactly the stored id, name, and
quantity — the stored name survives re-trimming and the stored quantity
survives the String/parseInt round trip — and the row count is unchanged.
For quantities of magnitude 10^21 or more the round trip fails: the field
holds the exponential form and parseInt keeps only its leading digits. -/
theorem c3_edit_roundtrip (s : AppState) (st : Store) (it : Item)
    (hr : Reachable (s, st)) (hm : it ∈ st.rows)
    (hq : it.quantity.natAbs < 10 ^ 21) :
    (saveOrUpdate false false (startEdit it s) st).2.2
        = [StoreCall.update it.id it.name it.quantity, StoreCall.fetchAll] ∧
    (saveOrUpdate false false (startEdit it s) st).2.1.rows.length
        = st.rows.length := by
  obtain ⟨hrows, hnd⟩ := reachable_storeInv (s, st) hr
  obtain ⟨htrim, hne, _⟩ := hrows it hm
  have hname : jsTrim (startEdit it s).name = it.name := htrim
  have h1 : ¬ jsTrim (startEdit it s).name = "" := by
    rw [hname]; exact hne
  have h2 : parseIntBase10 (startEdit it s).quantity = some it.quantity :=
    parse_jsStringOfInt_small it.quantity hq
  have h3 : (startEdit it s).editingId = some it.id := rfl
  rw [saveOrUpdate_update false (startEdit it s) st it.quantity it.id h1 h2 h3]
  constructor
  · show StoreCall.update it.id (jsTrim (startEdit it s).name) it.quantity ::
        (loadItems false (startEdit it s)
          (updateItem st it.id (jsTrim (startEdit it s).name) it.quantity)).2.2 = _
    rw [loadItems_calls, hname]
  · show (loadItems false (startEdit it s)
        (updateItem st it.id (jsTrim (startEdit it s).name) it.quantity)).2.1.rows.length
        = st.rows.length
    rw [loadItems_store, updateItem_rows_length]

/-- Witness for C3: a state holding the single item (1, "Apples", 5) is
reachable by typing the fields and submitting; editing that item and
resubmitting issues the identity update call and keeps one row. -/
theorem c3_witness :
    (saveOrUpdate false false
        (startEdit (Item.mk 1 ("Apples") 5)
          (AppState.mk ("") ("") none [Item.mk 1 ("Apples") 5]))
        (Store.mk [Item.mk 1 ("Apples") 5] 2)).2.2
      = [StoreCall.update 1 ("Apples") 5, StoreCall.fetchAll] ∧
    (saveOrUpdate false false
        (startEdit (Item.mk 1 ("Apples") 5)
          (AppState.mk ("") ("") none [Item.mk 1 ("Apples") 5]))
        (Store.mk [Item.mk 1 ("Apples") 5] 2)).2.1.rows.length = 1 := by
  have hreach : Reachable
      (AppState.mk ("") ("") none [Item.mk 1 ("Apples") 5],
       Store.mk [Item.mk 1 ("Apples") 5] 2) :=
    ⟨[Event.setNameEv ("Apples"), Event.setQuantityEv ("5"), Event.submitEv false false],
     by decide⟩
  have h := c3_edit_roundtrip
    (AppState.mk ("") ("") none [Item.mk 1 ("Apples") 5])
    (Store.mk [Item.mk 1 ("Apples") 5] 2)
    (Item.mk 1 ("Apples") 5) hreach (by decide) (by norm_num)
  exact ⟨h.1, h.2⟩

/-- Claim C8: every insert call the controller can issue, across all of its
user-triggered entry points, carries a name that is already trimmed (equal
to its own trim) and non-empty. -/
theorem c8_insert_pretrimmed (e : Event) (s : AppState) (st : Store)
    (n : String) (q : Int)
    (h : StoreCall.insert n q ∈ (stepFn e s st).2.2) :
    jsTrim n = n ∧ n ≠ ("") := by
  cases e with
  | setNameEv v => exact absurd h (List.not_mem_nil _)
  | setQuantityEv v => exact absurd h (List.not_mem_nil _)
  | editEv it =>
    have h2 : StoreCall.insert n q ∈
        (if it ∈ s.items then (startEdit it s, st, ([] : List StoreCall))
         else (s, st, ([] : List StoreCall))).2.2 := h
    by_cases hmem : it ∈ s.items
    · rw [if_pos hmem] at h2
      exact absurd h2 (List.not_mem_nil _)
    · rw [if_neg hmem] at h2
      exact absurd h2 (List.not_mem_nil _)
  | deleteCancelEv id => exact absurd h (List.not_mem_nil _)
  | reloadEv ff =>
    have h2 : StoreCall.insert n q ∈ (loadItems ff s st).2.2 := h
    rw [loadItems_calls] at h2
    simp at h2
  | deleteConfirmEv id df ff =>
    have h2 : StoreCall.insert n q ∈ (confirmDeleteConfirmed df ff id s st).2.2 := h
    cases df with
    | true =>
      rw [confirmDelete_fail ff id s st] at h2
      simp at h2
    | false =>
      by_cases heid : s.editingId = some id
      · rw [confirmDelete_editing ff id s st heid] at h2
        rw [loadItems_calls] at h2
        simp at h2
      · rw [confirmDelete_other ff id s st heid] at h2
        rw [loadItems_calls] at h2
        simp at h2
  | submitEv mf ff =>
    have h2 : StoreCall.insert n q ∈ (saveOrUpdate mf ff s st).2.2 := h
    by_cases h1 : jsTrim s.name = ""
    · rw [saveOrUpdate_invalid mf ff s st (Or.inl h1)] at h2
      exact absurd h2 (List.not_mem_nil _)
    · cases hq : parseIntBase10 s.quantity with
      | none =>
        rw [saveOrUpdate_invalid mf ff s st (Or.inr hq)] at h2
        exact absurd h2 (List.not_mem_nil _)
      | some q0 =>
        cases he : s.editingId with
        | none =>
          cases mf with
          | true =>
            rw [saveOrUpdate_insertFails ff s st q0 h1 hq he] at h2
            rw [List.mem_singleton] at h2
            injection h2 with hn _
            subst hn
            exact ⟨jsTrim_idem s.name, h1⟩
          | false =>
            rw [saveOrUpdate_insert ff s st q0 h1 hq he] at h2
            have h3 : StoreCall.insert n q ∈ StoreCall.insert (jsTrim s.name) q0 ::
                (loadItems ff s (insertItem st (jsTrim s.name) q0)).2.2 := h2
            rw [loadItems_calls, List.mem_cons, List.mem_singleton] at h3
            rcases h3 with h3 | h3
            · injection h3 with hn _
              subst hn
              exact ⟨jsTrim_idem s.name, h1⟩
            · exact absurd h3 (by simp)
        | some i =>
          cases mf with
          | true =>
            rw [saveOrUpdate_updateFails ff s st q0 i h1 hq he] at h2
            rw [List.mem_singleton] at h2
            exact absurd h2 (by simp)
          | false =>
            rw [saveOrUpdate_update ff s st q0 i h1 hq he] at h2
            have h3 : StoreCall.insert n q ∈ StoreCall.update i (jsTrim s.name) q0 ::
                (loadItems ff s (updateItem st i (jsTrim s.name) q0)).2.2 := h2
            rw [loadItems_calls, List.mem_cons, List.mem_singleton] at h3
            rcases h3 with h3 | h3
            · exact absurd h3 (by simp)
            · exact absurd h3 (by simp)

/-- Witness for C8: submitting the raw name " A " (insert failing, so the
trace is exactly the insert call) issues an insert whose name argument "A"
is trimmed and non-empty. -/
theorem c8_witness : jsTrim ("A") = ("A") ∧ ("A" : String) ≠ ("") := by
  have h := c8_insert_pretrimmed (Event.submitEv true false)
    (AppState.mk (" A ") ("5") none []) (Store.mk [] 1) ("A") 5 (by decide)
  exact h

theorem filter_all_of (p : Item → Bool) :
    ∀ l : List Item, (∀ x ∈ l, p x = true) → l.filter p = l := by
  intro l
  induction l with
  | nil => intro _; rfl
  | cons a t ih =>
    intro h
    rw [List.filter_cons, if_pos (h a (by simp))]
    rw [ih (fun x hx => h x (by simp [hx]))]

theorem length_filter_ne (id : Int) :
    ∀ l : List Item, (l.map Item.id).Nodup →
      ∀ x ∈ l, x.id = id →
        (l.filter fun it => it.id ≠ id).length + 1 = l.length := by
  intro l
  induction l with
  | nil => intro _ x hx; exact absurd hx (List.not_mem_nil x)
  | cons a t ih =>
    intro hnd x hx hxid
    rw [List.map_cons, List.nodup_cons] at hnd
    obtain ⟨hna, hndt⟩ := hnd
    rw [List.mem_cons] at hx
    rcases hx with hx | hx
    · subst hx
      rw [List.filter_cons, if_neg (by simp [hxid])]
      have hfilter_t : (t.filter fun it => it.id ≠ id) = t := by
        apply filter_all_of
        intro y hy
        apply decide_eq_true
        intro hyid
        exact hna (List.mem_map.mpr ⟨y, hy, by rw [show Item.id y = id from hyid, hxid]⟩)
      rw [hfilter_t, List.length_cons]
    · have haid : a.id ≠ id := by
        intro he
        exact hna (List.mem_map.mpr ⟨x, hx, by rw [show Item.id x = id from hxid, he]⟩)
      rw [List.filter_cons, if_pos (decide_eq_true haid)]
      rw [List.length_cons, List.length_cons]
      have hih := ih hndt x hx hxid
      omega

/-- Claim C4: assuming pairwise-distinct row ids, confirming a delete for an
id (with the delete and re-fetch succeeding) leaves exactly the rows whose
id differs, removes exactly one row when the id is present, issues the
delete call followed by the re-fetch, refreshes the displayed list to the
new store contents, and clears the form and editing flag precisely when the
deleted id was the one being edited; cancelling changes nothing at all. -/
theorem c4_delete_confirm_cancel (s : AppState) (st : Store) (id : Int)
    (hnd : (st.rows.map Item.id).Nodup) :
    ((confirmDeleteConfirmed false false id s st).2.1.rows
        = (st.rows.filter fun it => it.id ≠ id) ∧
     (∀ x ∈ st.rows, x.id = id →
        (confirmDeleteConfirmed false false id s st).2.1.rows.length + 1
          = st.rows.length) ∧
     (∀ x ∈ (confirmDeleteConfirmed false false id s st).2.1.rows,
        x ∈ st.rows ∧ x.id ≠ id) ∧
     (∀ x ∈ st.rows, x.id ≠ id →
        x ∈ (confirmDeleteConfirmed false false id s st).2.1.rows) ∧
     (confirmDeleteConfirmed false false id s st).2.2
        = [StoreCall.delete id, StoreCall.fetchAll] ∧
     (confirmDeleteConfirmed false false id s st).1.items
        = (confirmDeleteConfirmed false false id s st).2.1.rows ∧
     (confirmDeleteConfirmed false false id s st).1.editingId
        = (if s.editingId = some id then none else s.editingId) ∧
     (confirmDeleteConfirmed false false id s st).1.name
        = (if s.editingId = some id then ("") else s.name) ∧
     (confirmDeleteConfirmed false false id s st).1.quantity
        = (if s.editingId = some id then ("") else s.quantity)) ∧
    confirmDeleteCancelled id s st = (s, st, []) := by
  have hrows : (confirmDeleteConfirmed false false id s st).2.1.rows
      = (st.rows.filter fun it => it.id ≠ id) := by
    by_cases he : s.editingId = some id
    · rw [confirmDelete_editing false id s st he]
      show (loadItems false s (deleteItem st id)).2.1.rows = _
      rw [loadItems_store]
      rfl
    · rw [confirmDelete_other false id s st he]
      show (loadItems false s (deleteItem st id)).2.1.rows = _
      rw [loadItems_store]
      rfl
  have hcalls : (confirmDeleteConfirmed false false id s st).2.2
      = [StoreCall.delete id, StoreCall.fetchAll] := by
    by_cases he : s.editingId = some id
    · rw [confirmDelete_editing false id s st he]
      show StoreCall.delete id :: (loadItems false s (deleteItem st id)).2.2 = _
      rw [loadItems_calls]
    · rw [confirmDelete_other false id s st he]
      show StoreCall.delete id :: (loadItems false s (deleteItem st id)).2.2 = _
      rw [loadItems_calls]
  have hitems : (confirmDeleteConfirmed false false id s st).1.items
      = (confirmDeleteConfirmed false false id s st).2.1.rows := by
    rw [hrows]
    by_cases he : s.editingId = some id
    · rw [confirmDelete_editing false id s st he]
      rfl
    · rw [confirmDelete_other false id s st he]
      rfl
  have heid : (confirmDeleteConfirmed false false id s st).1.editingId
      = (if s.editingId = some id then none else s.editingId) := by
    by_cases he : s.editingId = some id
    · rw [confirmDelete_editing false id s st he, if_pos he]
      rfl
    · rw [confirmDelete_other false id s st he, if_neg he]
      exact loadItems_editingId false s _
  have hname : (confirmDeleteConfirmed false false id s st).1.name
      = (if s.editingId = some id then ("") else s.name) := by
    by_cases he : s.editingId = some id
    · rw [confirmDelete_editing false id s st he, if_pos he]
      rfl
    · rw [confirmDelete_other false id s st he, if_neg he]
      exact loadItems_name false s _
  have hqty : (confirmDeleteConfirmed false false id s st).1.quantity
      = (if s.editingId = some id then ("") else s.quantity) := by
    by_cases he : s.editingId = some id
    · rw [confirmDelete_editing false id s st he, if_pos he]
      rfl
    · rw [confirmDelete_other false id s st he, if_neg he]
      exact loadItems_quantity false s _
  refine ⟨⟨hrows, ?_, ?_, ?_, hcalls, hitems, heid, hname, hqty⟩, rfl⟩
  · intro x hx hxid
    rw [hrows]
    exact length_filter_ne id st.rows hnd x hx hxid
  · intro x hx
    rw [hrows] at hx
    have h5 := List.mem_filter.mp hx
    refine ⟨h5.1, ?_⟩
    simpa using h5.2
  · intro x hx hxid
    rw [hrows]
    exact List.mem_filter.mpr ⟨hx, decide_eq_true hxid⟩

/-- Witness for C4 at a concrete input: confirming deletion of id 1 while
editing id 1, with rows (1, "A", 2) and (2, "B", 3), leaves only the second
row, drops the count from 2 to 1, clears the editing flag, and the cancel
branch changes nothing. -/
theorem c4_witness :
    (confirmDeleteConfirmed false false 1
        (AppState.mk ("") ("") (some 1) [Item.mk 1 ("A") 2, Item.mk 2 ("B") 3])
        (Store.mk [Item.mk 1 ("A") 2, Item.mk 2 ("B") 3] 3)).2.1.rows
      = [Item.mk 2 ("B") 3] ∧
    (confirmDeleteConfirmed false false 1
        (AppState.mk ("") ("") (some 1) [Item.mk 1 ("A") 2, Item.mk 2 ("B") 3])
        (Store.mk [Item.mk 1 ("A") 2, Item.mk 2 ("B") 3] 3)).2.1.rows.length + 1 = 2 ∧
    (confirmDeleteConfirmed false false 1
        (AppState.mk ("") ("") (some 1) [Item.mk 1 ("A") 2, Item.mk 2 ("B") 3])
        (Store.mk [Item.mk 1 ("A") 2, Item.mk 2 ("B") 3] 3)).1.editingId = none ∧
    confirmDeleteCancelled 1
        (AppState.mk ("") ("") (some 1) [Item.mk 1 ("A") 2, Item.mk 2 ("B") 3])
        (Store.mk [Item.mk 1 ("A") 2, Item.mk 2 ("B") 3] 3)
      = (AppState.mk ("") ("") (some 1) [Item.mk 1 ("A") 2, Item.mk 2 ("B") 3],
         Store.mk [Item.mk 1 ("A") 2, Item.mk 2 ("B") 3] 3, []) := by
  have h := c4_delete_confirm_cancel
    (AppState.mk ("") ("") (some 1) [Item.mk 1 ("A") 2, Item.mk 2 ("B") 3])
    (Store.mk [Item.mk 1 ("A") 2, Item.mk 2 ("B") 3] 3) 1 (by decide)
  refine ⟨h.1.1.trans (by decide), ?_, h.1.2.2.2.2.2.2.1.trans (by decide), h.2⟩
  exact h.1.2.1 (Item.mk 1 ("A") 2) (by decide) (by decide)

/-- Claim C6, counterexample: an insert that succeeds while the following
re-fetch fails leaves the in-memory list stale — after the successful
mutation the displayed list (empty) differs from the store contents (one
row), so the claim as stated fails. -/
theorem c6_counterexample :
    (saveOrUpdate false true (AppState.mk ("A") ("5") none []) (Store.mk [] 1)).1.items
      ≠ fetchItems (saveOrUpdate false true (AppState.mk ("A") ("5") none [])
          (Store.mk [] 1)).2.1 := by
  decide

/-- Claim C6, amended: after every successful mutation whose following list
re-fetch also succeeds — a valid-input submit (insert or update) or a
confirmed delete — the in-memory items list equals exactly the full current
store contents. -/
theorem c6_list_matches_store (s : AppState) (st : Store) (id : Int) (q : Int)
    (h1 : ¬ jsTrim s.name = "") (h2 : parseIntBase10 s.quantity = some q) :
    (saveOrUpdate false false s st).1.items
        = fetchItems (saveOrUpdate false false s st).2.1 ∧
    (confirmDeleteConfirmed false false id s st).1.items
        = fetchItems (confirmDeleteConfirmed false false id s st).2.1 := by
  constructor
  · cases he : s.editingId with
    | none =>
      rw [saveOrUpdate_insert false s st q h1 h2 he]
      show (clearForm (loadItems false s (insertItem st (jsTrim s.name) q)).1).items
          = fetchItems (loadItems false s (insertItem st (jsTrim s.name) q)).2.1
      rw [loadItems_store]
      rfl
    | some i =>
      rw [saveOrUpdate_update false s st q i h1 h2 he]
      show (clearForm (loadItems false s (updateItem st i (jsTrim s.name) q)).1).items
          = fetchItems (loadItems false s (updateItem st i (jsTrim s.name) q)).2.1
      rw [loadItems_store]
      rfl
  · by_cases he : s.editingId = some id
    · rw [confirmDelete_editing false id s st he]
      show (clearForm (loadItems false s (deleteItem st id)).1).items
          = fetchItems (loadItems false s (deleteItem st id)).2.1
      rw [loadItems_store]
      rfl
    · rw [confirmDelete_other false id s st he]
      show (loadItems false s (deleteItem st id)).1.items
          = fetchItems (loadItems false s (deleteItem st id)).2.1
      rw [loadItems_store]
      rfl

/-- Witness for the amended C6 at a concrete input: after a successful
insert with a successful re-fetch, and after a successful confirmed delete
with a successful re-fetch, the displayed list equals the store rows. -/
theorem c6_witness :
    (saveOrUpdate false false (AppState.mk ("A") ("5") none [])
        (Store.mk [] 1)).1.items
      = fetchItems (saveOrUpdate false false (AppState.mk ("A") ("5") none [])
          (Store.mk [] 1)).2.1 ∧
    (confirmDeleteConfirmed false false 1 (AppState.mk ("A") ("5") none [])
        (Store.mk [] 1)).1.items
      = fetchItems (confirmDeleteConfirmed false false 1 (AppState.mk ("A") ("5") none [])
          (Store.mk [] 1)).2.1 :=
  c6_list_matches_store (AppState.mk ("A") ("5") none []) (Store.mk [] 1) 1 5
    (by decide) (by decide)
